import Mathlib

/-!
Shallow embedding of the regex-map smartmodule (src/src/lib.rs).

The module keeps a process-wide list of `Operation`s (a single `Replace`
variant holding a pattern string, a replacement template and an optional
compiled matcher).  Initialization parses a `spec` parameter into a list of
operations, compiles every pattern once, and stores the pipeline; the
per-record entry point decodes the record value as UTF-8 text, folds the
compiled operations over it (each step replacing all matches of its pattern
by its template), parses the resulting text as JSON and emits the
re-serialized value together with the unchanged record key.

External crates (regex, serde_json, std's UTF-8 decoding) are modelled as an
abstract environment `Env`: the repository's own functions are translated
line by line against that interface.
-/

set_option autoImplicit false

namespace RegexMapSm

/-- Abstract interface to the external crates used by the module:
`compile`/`replaceAll` model `regex::Regex::new` and `Regex::replace_all`
(the template string is an argument of `replaceAll`, as in
`regex.replace_all(text, &r.with)`), `utf8Decode` models
`std::str::from_utf8`, `parseSpec` models
`serde_json::from_str::<Vec<Operation>>` (returning (pattern, template)
pairs: the `re` field is `#[serde(skip)]`, so deserialization always leaves
it `None`), `parseJson` models `serde_json::from_str::<Value>` and
`serialize` models `serde_json::to_string`. -/
structure Env (Regex Json : Type) where
  compile : String → Except String Regex
  replaceAll : Regex → String → String → String
  utf8Decode : List Nat → Except String String
  parseSpec : String → Except String (List (String × String))
  parseJson : String → Except String Json
  serialize : Json → String

/-- The distinct failure kinds the Rust code can surface (plus `panicked`
for `Option::unwrap` on `None`, which aborts in Rust and is represented
explicitly here). -/
inductive SmError where
  | missingParam (name : String)
  | invalidConfig (msg : String)
  | invalidPattern (pat : String) (msg : String)
  | uninitialized
  | panicked (msg : String)
  | nonUtf8 (msg : String)
  | malformedResult (msg : String)
deriving DecidableEq

/-- `struct Replace { regex: String, with: String, re: Option<Regex> }`. -/
structure Replace (Regex : Type) where
  regex : String
  with_ : String
  re : Option Regex
deriving DecidableEq

/-- `enum Operation { Replace(Replace) }`. -/
inductive Operation (Regex : Type) where
  | Replace (r : Replace Regex)
deriving DecidableEq

variable {Regex Json : Type}

/-- `Operation::get_re`. -/
def Operation.get_re : Operation Regex → Option Regex
  | .Replace r => r.re

/-- `Operation::clone_with_regex`: clones the operation with
`re = Some(Regex::new(&r.regex)?)`; the propagated regex error carries the
offending pattern (as `regex::Error`'s rendering does). -/
def Operation.clone_with_regex (E : Env Regex Json) :
    Operation Regex → Except SmError (Operation Regex)
  | .Replace r =>
    match E.compile r.regex with
    | .ok c => .ok (.Replace { r with re := some c })
    | .error e => .error (.invalidPattern r.regex e)

/-- `Operation::run_regex`: `r.re.as_ref().unwrap()` followed by
`replace_all`; the `unwrap` panic on a missing matcher is modelled as
`none`. -/
def Operation.run_regex (E : Env Regex Json) (op : Operation Regex)
    (text : String) : Option String :=
  match op with
  | .Replace r => r.re.map fun regex => E.replaceAll regex r.with_ text

/-- `const PARAM_NAME: &str = "spec"`. -/
def PARAM_NAME : String := "spec"

/-- `get_params`: look up the `spec` parameter and deserialize it into an
operation list (every deserialized operation has `re = None`). -/
def get_params (E : Env Regex Json) (params : List (String × String)) :
    Except SmError (List (Operation Regex)) :=
  match params.lookup PARAM_NAME with
  | some raw_spec =>
    match E.parseSpec raw_spec with
    | .ok entries => .ok (entries.map fun pw => .Replace ⟨pw.1, pw.2, none⟩)
    | .error err => .error (.invalidConfig err)
  | none => .error (.missingParam PARAM_NAME)

/-- `compile_regex`: the `while let` loop pushing `op.clone_with_regex()?`
for each operation in order. -/
def compile_regex (E : Env Regex Json) :
    List (Operation Regex) → Except SmError (List (Operation Regex))
  | [] => .ok []
  | op :: rest =>
    match op.clone_with_regex E with
    | .error e => .error e
    | .ok c =>
      match compile_regex E rest with
      | .error e => .error e
      | .ok cs => .ok (c :: cs)

/-- A record: optional key bytes and value bytes. -/
structure Record where
  key : Option (List Nat)
  value : List Nat
deriving DecidableEq

/-- The `while let` loop inside `apply_regex_ops_to_json_record`:
`if op.get_re().is_some() { data = op.run_regex(&data); }`. -/
def apply_ops_loop (E : Env Regex Json) :
    List (Operation Regex) → String → Option String
  | [], data => some data
  | op :: rest, data =>
    if (op.get_re).isSome then
      match op.run_regex E data with
      | some d => apply_ops_loop E rest d
      | none => none
    else
      apply_ops_loop E rest data

/-- `apply_regex_ops_to_json_record`: UTF-8 decode the value, run the
operation loop, then parse the result as JSON. -/
def apply_regex_ops_to_json_record (E : Env Regex Json) (record : Record)
    (ops : List (Operation Regex)) : Except SmError Json :=
  match E.utf8Decode record.value with
  | .error e => .error (.nonUtf8 e)
  | .ok data_str =>
    match apply_ops_loop E ops data_str with
    | none => .error (.panicked "called unwrap on a None value")
    | some data =>
      match E.parseJson data with
      | .error e => .error (.malformedResult e)
      | .ok v => .ok v

/-- `map`: read the installed pipeline (error when uninitialized), apply it
to the record, and emit the unchanged key with the serialized JSON value. -/
def map (E : Env Regex Json) (st : Option (List (Operation Regex)))
    (record : Record) : Except SmError (Option (List Nat) × String) :=
  match st with
  | none => .error .uninitialized
  | some ops =>
    match apply_regex_ops_to_json_record E record ops with
    | .error e => .error e
    | .ok result => .ok (record.key, E.serialize result)

/-- `init`: `get_params` then `compile_regex` (installation into the
`OnceCell` is host plumbing; the produced pipeline is returned). -/
def init (E : Env Regex Json) (params : List (String × String)) :
    Except SmError (List (Operation Regex)) :=
  match get_params E params with
  | .error e => .error e
  | .ok ops => compile_regex E ops

/-- The (pattern, template) part of an operation, used to compare compiled
pipelines with their specs. -/
def specOf : Operation Regex → String × String
  | .Replace r => (r.regex, r.with_)

/-- The spec's description of one pipeline step: replace every
non-overlapping match of the operation's compiled pattern by its
instantiated template (the matcher is present for compiled operations; an
absent matcher leaves the text unchanged). -/
def fold_step (E : Env Regex Json) (text : String) : Operation Regex → String
  | .Replace r =>
    match r.re with
    | some regex => E.replaceAll regex r.with_ text
    | none => text

/-! ### A concrete instantiation of the external interface, for evaluation -/

/-- Decimal value of an ASCII digit character, if it is one. -/
def digitVal? (c : Char) : Option Nat :=
  if 48 ≤ c.toNat ∧ c.toNat ≤ 57 then some (c.toNat - 48) else none

/-- Parse a list of decimal digits into a number (most significant first),
failing on any non-digit. -/
def parseDigits : List Char → Nat → Option Nat
  | [], acc => some acc
  | c :: cs, acc =>
    match digitVal? c with
    | some d => parseDigits cs (acc * 10 + d)
    | none => none

/-- A small executable engine used to evaluate the module's functions on
concrete inputs: a "compiled regex" is the pattern itself (the pattern
`"("` is the one rejected pattern, standing for an unbalanced group),
matching is literal whole-string matching, bytes decode as ASCII, JSON
values are natural numbers written in decimal, and serialization prints
them canonically (so `"01"` parses to `1` and re-serializes as `"1"`). -/
def testEnv : Env String Nat where
  compile := fun p => if p = "(" then .error "unclosed group" else .ok p
  replaceAll := fun re w t => if t = re then w else t
  utf8Decode := fun bs =>
    if bs.all (· < 128) then .ok (String.mk (bs.map Char.ofNat))
    else .error "invalid utf-8"
  parseSpec := fun s => if s = "[]" then .ok [] else .error "expected a sequence"
  parseJson := fun s =>
    match s.data with
    | [] => .error "invalid json"
    | cs =>
      match parseDigits cs 0 with
      | some n => .ok n
      | none => .error "invalid json"
  serialize := fun n => toString n

/-- A valid operation spec (uncompiled). -/
def opA : Operation String := .Replace ⟨"a", "b", none⟩

/-- `opA` after compilation. -/
def opA_compiled : Operation String := .Replace ⟨"a", "b", some "a"⟩

/-- An operation spec whose pattern is rejected by `testEnv.compile`. -/
def opBad : Operation String := .Replace ⟨"(", "w", none⟩

/-! ### Helper lemmas -/

/-- `run_regex` succeeds exactly when the matcher is present. -/
theorem run_regex_isSome_iff (E : Env Regex Json) (op : Operation Regex)
    (text : String) :
    (op.run_regex E text).isSome = (op.get_re).isSome := by
  cases op with
  | Replace r => cases r.re <;> simp [Operation.run_regex, Operation.get_re]

/-- The operation loop never reaches the `unwrap` panic branch. -/
theorem apply_ops_loop_isSome (E : Env Regex Json)
    (ops : List (Operation Regex)) (text : String) :
    (apply_ops_loop E ops text).isSome := by
  induction ops generalizing text with
  | nil => simp [apply_ops_loop]
  | cons op rest ih =>
    by_cases h : (op.get_re).isSome
    · have hr : (op.run_regex E text).isSome = true := by
        rw [run_regex_isSome_iff]; exact h
      obtain ⟨d, hd⟩ := Option.isSome_iff_exists.mp hr
      simp [apply_ops_loop, h, hd, ih]
    · simp [apply_ops_loop, h, ih]

/-- On lists of operations whose matchers are all present, the loop is the
left fold of `fold_step`. -/
theorem apply_ops_loop_eq_foldl (E : Env Regex Json)
    (ops : List (Operation Regex)) (text : String)
    (h : ∀ op ∈ ops, (Operation.get_re op).isSome) :
    apply_ops_loop E ops text = some (ops.foldl (fold_step E) text) := by
  induction ops generalizing text with
  | nil => simp [apply_ops_loop]
  | cons op rest ih =>
    have hop : (op.get_re).isSome := h op (List.mem_cons_self op rest)
    cases op with
    | Replace r =>
      obtain ⟨c, hc⟩ := Option.isSome_iff_exists.mp hop
      simp only [Operation.get_re] at hc
      simp [apply_ops_loop, Operation.get_re, Operation.run_regex, hc,
        fold_step, ih _ (fun o ho => h o (List.mem_cons_of_mem _ ho))]

/-- Successful compilation preserves the (pattern, template) data of every
operation, in order, and installs a matcher in each. -/
theorem compile_regex_ok_shape (E : Env Regex Json)
    (specs res : List (Operation Regex))
    (h : compile_regex E specs = .ok res) :
    res.map specOf = specs.map specOf ∧
      ∀ op ∈ res, (Operation.get_re op).isSome := by
  induction specs generalizing res with
  | nil =>
    simp only [compile_regex] at h
    cases h
    simp
  | cons op rest ih =>
    cases op with
    | Replace r =>
      simp only [compile_regex, Operation.clone_with_regex] at h
      cases hc : E.compile r.regex with
      | error e => rw [hc] at h; simp at h
      | ok c =>
        rw [hc] at h
        cases hr : compile_regex E rest with
        | error e => rw [hr] at h; simp at h
        | ok cs =>
          rw [hr] at h
          simp only [Except.ok.injEq] at h
          subst h
          obtain ⟨hmap, hsome⟩ := ih cs hr
          refine ⟨by simp [specOf, hmap], ?_⟩
          intro o ho
          rcases List.mem_cons.mp ho with h1 | h2
          · subst h1; simp [Operation.get_re]
          · exact hsome o h2

/-! ### Claims -/

/-- C1: pipeline application is a strict left fold over the operation list:
for every compiled operation list `ops` (produced by `compile_regex`) and
every input text, the result of the operation loop equals folding over
`ops` in declared order, each step replacing every non-overlapping match of
that operation's pattern by its instantiated template (`fold_step`), the
output of operation `i` being the sole input of operation `i+1`. -/
theorem pipeline_apply_is_left_fold (E : Env Regex Json)
    (specs ops : List (Operation Regex))
    (h : compile_regex E specs = .ok ops) (text : String) :
    apply_ops_loop E ops text = some (ops.foldl (fold_step E) text) :=
  apply_ops_loop_eq_foldl E ops text (compile_regex_ok_shape E specs ops h).2

/-- Witness for C1 at a concrete pipeline and text. -/
theorem pipeline_apply_is_left_fold_witness :
    compile_regex testEnv [opA] = .ok [opA_compiled] ∧
    apply_ops_loop testEnv [opA_compiled] "a" =
      some ([opA_compiled].foldl (fold_step testEnv) "a") ∧
    [opA_compiled].foldl (fold_step testEnv) "a" = "b" :=
  ⟨rfl, pipeline_apply_is_left_fold testEnv [opA] [opA_compiled] rfl "a", rfl⟩

/-- C2: compilation of `N` specs either returns exactly `N` compiled
operations in the given order (the empty list yielding the empty pipeline),
or fails on the first spec whose pattern is invalid, reporting that
pattern's text and the underlying syntax error; on failure no partial list
is produced (the result is an `error`, carrying no list). -/
theorem compile_regex_spec (E : Env Regex Json) :
    compile_regex E ([] : List (Operation Regex)) = .ok [] ∧
    (∀ specs res, compile_regex E specs = .ok res →
      res.length = specs.length ∧ res.map specOf = specs.map specOf) ∧
    (∀ (pre post : List (Operation Regex)) (r : Replace Regex) (e : String),
      (∀ op ∈ pre, ∃ op', Operation.clone_with_regex E op = .ok op') →
      E.compile r.regex = .error e →
      compile_regex E (pre ++ .Replace r :: post) =
        .error (.invalidPattern r.regex e)) := by
  refine ⟨rfl, ?_, ?_⟩
  · intro specs res h
    obtain ⟨hmap, -⟩ := compile_regex_ok_shape E specs res h
    refine ⟨?_, hmap⟩
    have := congrArg List.length hmap
    simpa using this
  · intro pre post r e
    induction pre with
    | nil =>
      intro _ hcomp
      simp [compile_regex, Operation.clone_with_regex, hcomp]
    | cons op rest ih =>
      intro hpre hcomp
      obtain ⟨op', hop⟩ := hpre op (List.mem_cons_self op rest)
      have hrest := ih (fun o ho => hpre o (List.mem_cons_of_mem _ ho)) hcomp
      simp [compile_regex, hop, hrest]

/-- Witness for C2: a successful compilation of one spec, and a compilation
failing on the first invalid pattern in a list that also has a later
invalid pattern. -/
theorem compile_regex_spec_witness :
    ([opA_compiled].length = [opA].length ∧
      [opA_compiled].map specOf = [opA].map specOf) ∧
    compile_regex testEnv ([opA] ++ opBad :: [opBad]) =
      .error (.invalidPattern "(" "unclosed group") := by
  constructor
  · exact (compile_regex_spec testEnv).2.1 [opA] [opA_compiled] rfl
  · refine (compile_regex_spec testEnv).2.2 [opA] [opBad]
      ⟨"(", "w", none⟩ "unclosed group" ?_ rfl
    intro op hop
    rw [List.mem_singleton] at hop
    subst hop
    exact ⟨opA_compiled, rfl⟩

/-- C8: the empty operation list is a valid pipeline and the identity
transform: applying zero operations returns the input text unchanged,
byte-for-byte. -/
theorem empty_pipeline_identity (E : Env Regex Json) (text : String) :
    apply_ops_loop E [] text = some text := rfl

/-- C10: every operation returned by `compile_regex` has its matcher set;
the operation loop skips any operation whose matcher is absent (invoking
`run_regex` only on matcher-present operations); hence the `unwrap` inside
`run_regex` (the `none` outcome of the loop) is unreachable. -/
theorem compiled_pipeline_no_unwrap_panic (E : Env Regex Json) :
    (∀ specs ops, compile_regex E specs = .ok ops →
      ∀ op ∈ ops, (Operation.get_re op).isSome) ∧
    (∀ (op : Operation Regex) rest text, Operation.get_re op = none →
      apply_ops_loop E (op :: rest) text = apply_ops_loop E rest text) ∧
    (∀ ops text, (apply_ops_loop E ops text).isSome) := by
  refine ⟨fun specs ops h => (compile_regex_ok_shape E specs ops h).2,
    ?_, fun ops text => apply_ops_loop_isSome E ops text⟩
  intro op rest text h
  simp [apply_ops_loop, h]

/-- Witness for C10: a compiled operation has its matcher set, an
uncompiled operation is skipped by the loop, and the loop produces a
value. -/
theorem compiled_pipeline_no_unwrap_panic_witness :
    (Operation.get_re opA_compiled).isSome ∧
    apply_ops_loop testEnv (opA :: [opA_compiled]) "a" =
      apply_ops_loop testEnv [opA_compiled] "a" ∧
    (apply_ops_loop testEnv [opA_compiled] "a").isSome :=
  ⟨(compiled_pipeline_no_unwrap_panic testEnv).1 [opA] [opA_compiled] rfl
      opA_compiled (List.mem_singleton.mpr rfl),
    (compiled_pipeline_no_unwrap_panic testEnv).2.1 opA [opA_compiled] "a" rfl,
    (compiled_pipeline_no_unwrap_panic testEnv).2.2 [opA_compiled] "a"⟩

/-- C3: if the post-pipeline text fails to parse as JSON, the per-record
transformation returns a `malformedResult` error and `map` emits no output
value (its result is an `error`, carrying no record). -/
theorem malformed_result_no_output (E : Env Regex Json)
    (ops : List (Operation Regex)) (record : Record) (s d e : String)
    (h1 : E.utf8Decode record.value = .ok s)
    (h2 : apply_ops_loop E ops s = some d)
    (h3 : E.parseJson d = .error e) :
    apply_regex_ops_to_json_record E record ops =
      .error (.malformedResult e) ∧
    map E (some ops) record = .error (.malformedResult e) := by
  have ha : apply_regex_ops_to_json_record E record ops =
      .error (.malformedResult e) := by
    simp [apply_regex_ops_to_json_record, h1, h2, h3]
  exact ⟨ha, by simp [map, ha]⟩

/-- Witness for C3: the payload "x" survives the empty pipeline but is not
JSON, so the record fails with `malformedResult`. -/
theorem malformed_result_no_output_witness :
    testEnv.utf8Decode [120] = .ok "x" ∧
    testEnv.parseJson "x" = .error "invalid json" ∧
    map testEnv (some []) ⟨none, [120]⟩ =
      .error (.malformedResult "invalid json") :=
  ⟨rfl, rfl, (malformed_result_no_output testEnv [] ⟨none, [120]⟩ "x" "x"
    "invalid json" rfl rfl rfl).2⟩

/-- C4: on success, the emitted value is the serialization of the JSON
value parsed from the post-substitution text (`E.serialize v` with
`E.parseJson d = ok v`), not the raw post-substitution text `d` itself. -/
theorem success_emits_reserialized (E : Env Regex Json)
    (ops : List (Operation Regex)) (record : Record) (s d : String)
    (v : Json)
    (h1 : E.utf8Decode record.value = .ok s)
    (h2 : apply_ops_loop E ops s = some d)
    (h3 : E.parseJson d = .ok v) :
    map E (some ops) record = .ok (record.key, E.serialize v) := by
  simp [map, apply_regex_ops_to_json_record, h1, h2, h3]

/-- Witness for C4: payload "01" parses to the value 1 whose serialization
"1" differs from the raw pipeline output "01". -/
theorem success_emits_reserialized_witness :
    testEnv.utf8Decode [48, 49] = .ok "01" ∧
    testEnv.parseJson "01" = .ok 1 ∧
    map testEnv (some []) ⟨some [107], [48, 49]⟩ = .ok (some [107], "1") ∧
    ("1" : String) ≠ "01" :=
  ⟨rfl, rfl, success_emits_reserialized testEnv [] ⟨some [107], [48, 49]⟩
    "01" "01" 1 rfl rfl rfl, by decide⟩

/-- C5 counterexample to the claim as stated: the operation spec with
pattern "a" (which has no capture groups) and template "$nope" (which
references a capture group named nope) compiles successfully — compilation
does not fail on a template referencing a group absent from the pattern. -/
theorem template_reference_not_rejected :
    Operation.clone_with_regex testEnv (.Replace ⟨"a", "$nope", none⟩) =
      .ok (.Replace ⟨"a", "$nope", some "a"⟩) := rfl

/-- C5 amended: compilation inspects only the pattern — `clone_with_regex`
compiles `r.regex` and carries the template through verbatim, so its
outcome is independent of the template and a template referencing an
undefined capture group is never rejected at compile time (the external
engine's `replace_all` resolves such references at application time,
expanding them to the empty string). -/
theorem compile_ignores_template (E : Env Regex Json) (p w : String) :
    Operation.clone_with_regex E (.Replace ⟨p, w, none⟩) =
      match E.compile p with
      | .ok c => .ok (.Replace ⟨p, w, some c⟩)
      | .error e => .error (.invalidPattern p e) := rfl

/-- C6: invoking the per-record entry point with the pipeline state unset
returns the `uninitialized` error, which is distinct from both per-record
data errors (`nonUtf8` and `malformedResult`). -/
theorem uninitialized_error_distinct (E : Env Regex Json) (record : Record) :
    map E none record = .error .uninitialized ∧
    (∀ e, SmError.uninitialized ≠ SmError.nonUtf8 e) ∧
    (∀ e, SmError.uninitialized ≠ SmError.malformedResult e) := by
  refine ⟨rfl, fun e h => ?_, fun e h => ?_⟩ <;> exact SmError.noConfusion h

/-- C7: initialization with the `spec` parameter absent fails with the
named `missingParam` error, while initialization with the parameter present
but unparseable as an operation list fails with the distinct
`invalidConfig` error. -/
theorem init_missing_vs_invalid (E : Env Regex Json) :
    (∀ params : List (String × String),
      params.lookup PARAM_NAME = none →
      init E params = .error (.missingParam PARAM_NAME)) ∧
    (∀ (params : List (String × String)) (raw e : String),
      params.lookup PARAM_NAME = some raw → E.parseSpec raw = .error e →
      init E params = .error (.invalidConfig e)) ∧
    (∀ s e, SmError.missingParam s ≠ SmError.invalidConfig e) := by
  refine ⟨?_, ?_, fun s e h => SmError.noConfusion h⟩
  · intro params h
    simp [init, get_params, h]
  · intro params raw e h1 h2
    simp [init, get_params, h1, h2]

/-- Witness for C7: an empty parameter map gives `missingParam`, a present
but malformed `spec` parameter gives `invalidConfig`. -/
theorem init_missing_vs_invalid_witness :
    init testEnv [] = .error (.missingParam "spec") ∧
    init testEnv [("spec", "oops")] =
      .error (.invalidConfig "expected a sequence") :=
  ⟨(init_missing_vs_invalid testEnv).1 [] rfl,
    (init_missing_vs_invalid testEnv).2.1 [("spec", "oops")] "oops"
      "expected a sequence" rfl rfl⟩

/-- C9: whenever the per-record transformation succeeds, the emitted key is
the input record's key, unchanged. -/
theorem key_preserved (E : Env Regex Json)
    (st : Option (List (Operation Regex))) (record : Record)
    (k : Option (List Nat)) (v : String)
    (h : map E st record = .ok (k, v)) : k = record.key := by
  cases st with
  | none => simp [map] at h
  | some ops =>
    simp only [map] at h
    cases hres : apply_regex_ops_to_json_record E record ops with
    | error e => rw [hres] at h; simp at h
    | ok r =>
      rw [hres] at h
      simp only [Except.ok.injEq, Prod.mk.injEq] at h
      exact h.1.symm

/-- Witness for C9 at a concrete successful record. -/
theorem key_preserved_witness :
    map testEnv (some []) ⟨some [107], [49]⟩ = .ok (some [107], "1") ∧
    some [107] = (Record.mk (some [107]) [49]).key :=
  ⟨rfl, key_preserved testEnv (some []) ⟨some [107], [49]⟩
    (some [107]) "1" rfl⟩

end RegexMapSm
